import Mathlib

/-!
Verification of the ioeye storage-analysis engine.

The definitions below are a shallow embedding of the Go sources:
* `pkg/analyzer/storage_analyzer.go` — the `StorageAnalyzer` (history store,
  bottleneck classifier, anomaly detector, latency trend, top-N ranking);
* `pkg/monitor` — the `PodStorageMetrics` record and the monitor getters;
* the eBPF C program — the block-I/O start/completion correlator.

Machine `uint64` values are modelled as `Nat` (the latency sums appearing in
these claims stay far below `2^64`; where wraparound of `u64` subtraction is
relevant, in the correlator, it is written out as `% 2^64`).  `float64`
arithmetic is modelled over `ℚ`; Lean's `x / 0 = 0` convention is noted at
the one place it stands in for IEEE semantics.
-/

namespace IOEye

/-- `monitor.PodStorageMetrics`: per-pod storage metrics.  All latency fields
are in nanoseconds (`uint64` in Go, `Nat` here); `Timestamp` (a `time.Time`)
is modelled as an integer number of nanoseconds. -/
structure PodStorageMetrics where
  podName : String
  nspace : String
  readLatency : Nat
  writeLatency : Nat
  readIOPS : Nat
  writeIOPS : Nat
  readThroughput : Nat
  writeThroughput : Nat
  queueLatency : Nat
  diskLatency : Nat
  networkLatency : Nat
  timestamp : Int
  deriving DecidableEq, Repr

/-- `ReadLatencyThreshold = 10 * 1000 * 1000` (10ms in ns). -/
def ReadLatencyThreshold : Nat := 10 * 1000 * 1000

/-- `WriteLatencyThreshold = 20 * 1000 * 1000` (20ms in ns). -/
def WriteLatencyThreshold : Nat := 20 * 1000 * 1000

/-- `QueueLatencyThreshold = 5 * 1000 * 1000` (5ms in ns). -/
def QueueLatencyThreshold : Nat := 5 * 1000 * 1000

/-- `analyzer.BottleneckType`. -/
inductive BottleneckType where
  | none
  | queue
  | disk
  | network
  | unknown
  deriving DecidableEq, Repr

/-- `analyzeBottleneck` (storage_analyzer.go:226-251), translated clause by
clause: queue wins if above its threshold and strictly above disk and network;
then disk if strictly above queue and network; then network if strictly above
queue and disk; then `unknown` on high read/write latency; else `none`. -/
def analyzeBottleneck (m : PodStorageMetrics) : BottleneckType :=
  if m.queueLatency > QueueLatencyThreshold ∧
      m.queueLatency > m.diskLatency ∧
      m.queueLatency > m.networkLatency then
    .queue
  else if m.diskLatency > m.queueLatency ∧
      m.diskLatency > m.networkLatency then
    .disk
  else if m.networkLatency > m.queueLatency ∧
      m.networkLatency > m.diskLatency then
    .network
  else if m.readLatency > ReadLatencyThreshold ∨
      m.writeLatency > WriteLatencyThreshold then
    .unknown
  else
    .none

/-- The classifier as the spec words it: a priority list where each of the
first three rules demands a *strict maximum* among the three sub-latencies
(phrased through `max`), rule 4 is the read/write threshold check, rule 5 the
default. -/
def classifySpec (m : PodStorageMetrics) : BottleneckType :=
  if QueueLatencyThreshold < m.queueLatency ∧
      max m.diskLatency m.networkLatency < m.queueLatency then
    .queue
  else if max m.queueLatency m.networkLatency < m.diskLatency then
    .disk
  else if max m.queueLatency m.diskLatency < m.networkLatency then
    .network
  else if ReadLatencyThreshold < m.readLatency ∨
      WriteLatencyThreshold < m.writeLatency then
    .unknown
  else
    .none

/-- Combined latency of a snapshot: read latency + write latency
(`totalLatency` / `oldTotalLatency` / `newTotalLatency` in the Go code). -/
def combinedLatency (m : PodStorageMetrics) : Nat :=
  m.readLatency + m.writeLatency

/-- The arithmetic tail of `GetLatencyTrend` (storage_analyzer.go:199-220):
classify the change between the selected old snapshot and the latest one.
`float64` division is modelled over `ℚ`. -/
def trendFrom (oldest latest : PodStorageMetrics) : String × ℚ :=
  let oldTotal := combinedLatency oldest
  let newTotal := combinedLatency latest
  if oldTotal = 0 then
    if newTotal > 0 then ("increased", 100) else ("stable", 0)
  else
    let changePercent : ℚ := ((newTotal : ℚ) - (oldTotal : ℚ)) / (oldTotal : ℚ) * 100
    if changePercent > 10 then ("increased", changePercent)
    else if changePercent < -10 then ("decreased", changePercent)
    else ("stable", changePercent)

/-- `GetLatencyTrend` (storage_analyzer.go:172-221) on one pod's history.
`now` replaces `time.Now()`; `dur` is the window.  The Go loop
`for i := len-1; i >= 0; i--` that breaks at the first entry with
`Timestamp.Before(startTime)` is the first hit of a scan over the reversed
history; when the scan finds nothing, `oldestInRange` falls back to
`history[0]` (the `first` default of `getD`). -/
def getLatencyTrend (history : List PodStorageMetrics) (now dur : Int) :
    Except String (String × ℚ) :=
  match history with
  | [] => .error "insufficient data"
  | [_] => .error "insufficient data"
  | first :: rest =>
    let startTime := now - dur
    let latest := (first :: rest).getLastD first
    let oldestInRange :=
      ((first :: rest).reverse.find? fun m => decide (m.timestamp < startTime)).getD first
    .ok (trendFrom oldestInRange latest)

/-- The original spec sentence, word for word: the old endpoint is "the oldest
snapshot whose timestamp is ≥ now − window" (the first such entry in
chronological history order), and "only when no snapshot lies within the
window" does it fall back to the oldest available snapshot. -/
def getLatencyTrendClaimed (history : List PodStorageMetrics) (now dur : Int) :
    Except String (String × ℚ) :=
  match history with
  | [] => .error "insufficient data"
  | [_] => .error "insufficient data"
  | first :: rest =>
    let startTime := now - dur
    let latest := (first :: rest).getLastD first
    let oldest :=
      ((first :: rest).filter fun m => decide (startTime ≤ m.timestamp)).headD first
    .ok (trendFrom oldest latest)

/-- The amended description of the old endpoint: the *last* entry of the
history whose timestamp is strictly before `now − window`; only when every
entry's timestamp is ≥ `now − window` does it fall back to the oldest
available snapshot (`history[0]`). -/
def getLatencyTrendAmended (history : List PodStorageMetrics) (now dur : Int) :
    Except String (String × ℚ) :=
  match history with
  | [] => .error "insufficient data"
  | [_] => .error "insufficient data"
  | first :: rest =>
    let startTime := now - dur
    let latest := (first :: rest).getLastD first
    let oldest :=
      ((first :: rest).filter fun m => decide (m.timestamp < startTime)).getLastD first
    .ok (trendFrom oldest latest)

/-- `detectAnomaly` (storage_analyzer.go:254-294) on one pod's history, with
the analyzer's `anomalyThreshold`.  `float64` arithmetic is modelled over
`ℚ`; note `stdDevRead`/`stdDevWrite` are, despite their names, the population
variances (sum of squared deviations divided by N).  Lean's `x / 0 = 0`
stands in for the IEEE `0/0 = NaN` in the degenerate constant-history case:
both make the `>` comparison below come out false. -/
def detectAnomaly (threshold : ℚ) (history : List PodStorageMetrics) : Bool :=
  if history.length < 10 then false
  else
    let n : ℚ := history.length
    let sumRead : Nat := (history.map (·.readLatency)).sum
    let sumWrite : Nat := (history.map (·.writeLatency)).sum
    let avgRead : ℚ := (sumRead : ℚ) / n
    let avgWrite : ℚ := (sumWrite : ℚ) / n
    let sumSqDiffRead : ℚ :=
      (history.map (fun m => ((m.readLatency : ℚ) - avgRead) * ((m.readLatency : ℚ) - avgRead))).sum
    let sumSqDiffWrite : ℚ :=
      (history.map (fun m => ((m.writeLatency : ℚ) - avgWrite) * ((m.writeLatency : ℚ) - avgWrite))).sum
    let stdDevRead : ℚ := sumSqDiffRead / n
    let stdDevWrite : ℚ := sumSqDiffWrite / n
    match history.getLast? with
    | none => false
    | some latest =>
      let readZScore : ℚ := ((latest.readLatency : ℚ) - avgRead) / stdDevRead
      let writeZScore : ℚ := ((latest.writeLatency : ℚ) - avgWrite) / stdDevWrite
      decide (readZScore > threshold) || decide (writeZScore > threshold)

/-- Population mean of a list of rationals. -/
def popMean (l : List ℚ) : ℚ := l.sum / l.length

/-- Population variance (divide by N, not N−1). -/
def popVar (l : List ℚ) : ℚ :=
  ((l.map fun x => (x - popMean l) * (x - popMean l)).sum) / l.length

/-- The z-score as the spec words it: `(latest_value − mean) / variance` —
the denominator is the variance, not the standard deviation. -/
def zScoreSpec (l : List ℚ) (latest : ℚ) : ℚ :=
  (latest - popMean l) / popVar l

/-- The anomaly detector as the spec words it: below 10 entries return false;
otherwise flag iff the read z-score or the write z-score of the latest entry
exceeds the threshold. -/
def detectAnomalySpec (threshold : ℚ) (history : List PodStorageMetrics) : Bool :=
  if history.length < 10 then false
  else
    let reads := history.map fun m => (m.readLatency : ℚ)
    let writes := history.map fun m => (m.writeLatency : ℚ)
    match history.getLast? with
    | none => false
    | some latest =>
      decide (zScoreSpec reads (latest.readLatency : ℚ) > threshold) ||
        decide (zScoreSpec writes (latest.writeLatency : ℚ) > threshold)

/-- The comparator of `GetTopNSlowPods`: Go sorts with
`less i j ↔ latency i > latency j`, i.e. non-increasing combined latency. -/
def slowLE (a b : PodStorageMetrics) : Bool :=
  decide (combinedLatency b ≤ combinedLatency a)

/-- The latest snapshot of every entity that has one
(the loop over `sa.metricsHistory` with its `continue` on empty
history, storage_analyzer.go:116-129).  The history map is modelled as an
association list, whose order stands for Go's map iteration order. -/
def latestMetrics (entries : List (String × List PodStorageMetrics)) :
    List PodStorageMetrics :=
  entries.filterMap fun e => e.2.getLast?

/-- One deterministic refinement of the ranking `GetTopNSlowPods` builds
before truncation.  The Go code calls `sort.Slice` with the
descending-latency comparator; `sort.Slice` promises only a sorted
permutation of its input — it is documented as NOT guaranteed stable — so
this `mergeSort` is merely one admissible execution, and no property proved
of the program may rely on its tie order (see `isSortSliceResult` for the
contract that every admissible execution satisfies). -/
def slowRanking (entries : List (String × List PodStorageMetrics)) :
    List PodStorageMetrics :=
  (latestMetrics entries).mergeSort slowLE

/-- `GetTopNSlowPods` (storage_analyzer.go:103-143): rank the latest
snapshots by combined latency, descending, and keep the first `n` — with
the `sort.Slice` call refined as in `slowRanking`. -/
def getTopNSlowPods (n : Nat) (entries : List (String × List PodStorageMetrics)) :
    List PodStorageMetrics :=
  (slowRanking entries).take n

/-- The contract Go documents for the `sort.Slice` call on the
latest-snapshot list: the result is a permutation of the input that is
pairwise non-increasing in combined latency.  Nothing is promised about the
relative order of tied elements. -/
def isSortSliceResult (l r : List PodStorageMetrics) : Prop :=
  r.Perm l ∧
    List.Pairwise (fun a b => combinedLatency b ≤ combinedLatency a) r

/-- Every output `GetTopNSlowPods` may produce for `n` over the given map
iteration order: some `sort.Slice`-admissible ordering of the latest
snapshots, truncated to `n`. -/
def isTopNResult (entries : List (String × List PodStorageMetrics)) (n : Nat)
    (result : List PodStorageMetrics) : Prop :=
  ∃ r, isSortSliceResult (latestMetrics entries) r ∧ result = r.take n

/-- Two (or more) of the three sub-latencies are exactly equal and jointly
maximal among {queue, disk, network}. -/
def tiedMaximal (m : PodStorageMetrics) : Prop :=
  let M := max m.queueLatency (max m.diskLatency m.networkLatency)
  (m.queueLatency = M ∧ m.diskLatency = M) ∨
  (m.queueLatency = M ∧ m.networkLatency = M) ∨
  (m.diskLatency = M ∧ m.networkLatency = M)

instance (m : PodStorageMetrics) : Decidable (tiedMaximal m) := by
  unfold tiedMaximal; infer_instance

/-- `analyzer.StorageAnalyzer` state (storage_analyzer.go:31-38).  The Go
maps are modelled as functions from pod name; a missing key is `[]` for the
history map and `Option.none` for the result maps. -/
structure StorageAnalyzer where
  metricsHistory : String → List PodStorageMetrics
  maxHistoryPerPod : Nat
  podBottlenecks : String → Option BottleneckType
  anomalyDetected : String → Option Bool
  anomalyThreshold : ℚ

/-- `NewStorageAnalyzer` with no options: empty maps, capacity 100, anomaly
threshold 2.0. -/
def newStorageAnalyzer : StorageAnalyzer where
  metricsHistory := fun _ => []
  maxHistoryPerPod := 100
  podBottlenecks := fun _ => Option.none
  anomalyDetected := fun _ => Option.none
  anomalyThreshold := 2

/-- The `WithMaxHistoryPerPod` option: only positive values take effect. -/
def withMaxHistoryPerPod (max : Nat) (sa : StorageAnalyzer) : StorageAnalyzer :=
  if max > 0 then { sa with maxHistoryPerPod := max } else sa

/-- The body of the `AddMetrics` loop (storage_analyzer.go:82-99) for one
`(podName, podMetrics)` pair: deep-copy the record (value semantics here),
append it to the pod's history, drop the head (`history[1:]`) when the
length exceeds `maxHistoryPerPod`, re-classify the bottleneck from the new
record, and re-run anomaly detection on the updated history. -/
def addPodMetrics (sa : StorageAnalyzer) (podName : String)
    (podMetrics : PodStorageMetrics) : StorageAnalyzer :=
  let appended := sa.metricsHistory podName ++ [podMetrics]
  let newHistory :=
    if appended.length > sa.maxHistoryPerPod then appended.tail else appended
  { sa with
    metricsHistory := fun p => if p = podName then newHistory else sa.metricsHistory p
    podBottlenecks := fun p =>
      if p = podName then some (analyzeBottleneck podMetrics) else sa.podBottlenecks p
    anomalyDetected := fun p =>
      if p = podName then some (detectAnomaly sa.anomalyThreshold newHistory)
      else sa.anomalyDetected p }

/-- `AddMetrics` over a whole batch; the batch map is modelled as a list of
pairs in some iteration order. -/
def addMetrics (sa : StorageAnalyzer) (batch : List (String × PodStorageMetrics)) :
    StorageAnalyzer :=
  batch.foldl (fun s e => addPodMetrics s e.1 e.2) sa

/-! ### The eBPF block-I/O correlator (the C program's completion handler) -/

/-- `2^64`, the modulus of the kernel's `u64` arithmetic. -/
def U64 : Nat := 2 ^ 64

/-- `u64` subtraction with wraparound (for `io_end - io_start`). -/
def u64sub (a b : Nat) : Nat := (a + U64 - b % U64) % U64

/-- `u64` addition with wraparound. -/
def u64add (a b : Nat) : Nat := (a + b) % U64

/-- `struct io_event_t` (the fields the block-rq correlator touches). -/
structure IOEvent where
  ts : Nat
  pid : Nat
  tid : Nat
  ioStart : Nat
  ioEnd : Nat
  bytes : Nat
  operation : Nat
  deriving DecidableEq, Repr

/-- `struct latency_info_t`. -/
structure LatencyInfo where
  totalReadNs : Nat
  totalWriteNs : Nat
  countRead : Nat
  countWrite : Nat
  deriving DecidableEq, Repr

/-- The two eBPF hash maps: `requests` keyed by the kernel `struct request`
pointer (modelled as `Nat`), and `latency_by_pid` keyed by pid. -/
structure BpfState where
  requests : Nat → Option IOEvent
  latencyByPid : Nat → Option LatencyInfo

/-- `update_latency_stats`: fetch (or zero-initialise) the pid's entry and
add the duration to the read or write accumulator. -/
def updateLatencyStats (st : BpfState) (pid duration op : Nat) : BpfState :=
  let latency := (st.latencyByPid pid).getD ⟨0, 0, 0, 0⟩
  let latency' :=
    if op = 0 then
      { latency with
        totalReadNs := u64add latency.totalReadNs duration
        countRead := u64add latency.countRead 1 }
    else if op = 1 then
      { latency with
        totalWriteNs := u64add latency.totalWriteNs duration
        countWrite := u64add latency.countWrite 1 }
    else latency
  { st with latencyByPid := fun p => if p = pid then some latency' else st.latencyByPid p }

/-- `trace_block_rq_complete`: look up the pending start for this request
key; if absent, do nothing (return code 0).  If present, stamp the
completion time, compute the `u64` duration, fold it into the per-pid stats,
emit the completed event (paired with its duration) to user space, and
delete the pending entry.  Returns (new state, emitted event, return code). -/
def traceBlockRqComplete (st : BpfState) (req : Nat) (now : Nat) :
    BpfState × Option (IOEvent × Nat) × Nat :=
  match st.requests req with
  | Option.none => (st, Option.none, 0)
  | some ev =>
    let ev' := { ev with ioEnd := now }
    let duration := u64sub ev'.ioEnd ev'.ioStart
    let st1 := updateLatencyStats st ev'.pid duration ev'.operation
    let st2 :=
      { st1 with requests := fun r => if r = req then Option.none else st1.requests r }
    (st2, some (ev', duration), 0)

/-! ### A pointer-level model of the analyzer's read paths

Go getters hand out `*PodStorageMetrics`.  To state the copy-discipline
claim we make the pointers explicit: a heap of records addressed by `Nat`,
with the analyzer history holding addresses. -/

/-- A heap of `PodStorageMetrics` cells and its allocation frontier. -/
structure MetricsHeap where
  cells : Nat → PodStorageMetrics
  next : Nat

/-- Allocate a fresh cell holding `v` (the `metricsCopy := *podMetrics`
deep copy); returns the new heap and the new address. -/
def MetricsHeap.alloc (h : MetricsHeap) (v : PodStorageMetrics) : MetricsHeap × Nat :=
  ({ cells := fun a => if a = h.next then v else h.cells a, next := h.next + 1 }, h.next)

/-- Mutate the cell at `a` — what a caller does to a returned pointer. -/
def MetricsHeap.write (h : MetricsHeap) (a : Nat) (v : PodStorageMetrics) : MetricsHeap :=
  { h with cells := fun a2 => if a2 = a then v else h.cells a2 }

/-- `StorageAnalyzer` at pointer level: the history map holds addresses. -/
structure StorageAnalyzerH where
  heap : MetricsHeap
  histories : List (String × List Nat)
  maxHistoryPerPod : Nat

/-- Association-list update standing for a Go map store. -/
def setAssoc (l : List (String × List Nat)) (k : String) (v : List Nat) :
    List (String × List Nat) :=
  if l.any (fun e => e.1 = k) then l.map (fun e => if e.1 = k then (k, v) else e)
  else l ++ [(k, v)]

/-- Association-list lookup standing for a Go map read. -/
def lookupAssoc (l : List (String × List Nat)) (k : String) : List Nat :=
  ((l.find? fun e => e.1 = k).map (fun e => e.2)).getD []

/-- `AddMetrics` at pointer level: the incoming record is deep-copied into a
fresh cell (storage_analyzer.go:84) whose address is appended to the pod's
history, evicting the head when over capacity. -/
def addPodMetricsH (sa : StorageAnalyzerH) (podName : String)
    (podMetrics : PodStorageMetrics) : StorageAnalyzerH :=
  let (heap', addr) := sa.heap.alloc podMetrics
  let appended := lookupAssoc sa.histories podName ++ [addr]
  let newHistory :=
    if appended.length > sa.maxHistoryPerPod then appended.tail else appended
  { sa with heap := heap', histories := setAssoc sa.histories podName newHistory }

/-- `GetTopNSlowPods` at pointer level: the returned slice holds the very
addresses stored in the history (`result = append(result,
latencies[i].metrics)`, storage_analyzer.go:121 and 139 — no copy is made). -/
def getTopNSlowPodsH (n : Nat) (sa : StorageAnalyzerH) : List Nat :=
  let latest := sa.histories.filterMap fun e => e.2.getLast?
  (latest.mergeSort fun a b =>
    decide (combinedLatency (sa.heap.cells b) ≤ combinedLatency (sa.heap.cells a))).take n

/-- A metrics record with the given read/write/queue/disk/network latencies
and timestamp (the remaining fields zeroed); used for concrete inputs. -/
def sampleMetrics (r w q d nw : Nat) (ts : Int) : PodStorageMetrics :=
  ⟨"p", "default", r, w, 0, 0, 0, 0, q, d, nw, ts⟩

/-- A history of three snapshots at t = 800, 950, 1000 with combined
latencies 100, 200, 200: with `now = 1000` and a window of 100, the window
boundary is 900, so the snapshot at t = 800 sits just outside the window and
the one at t = 950 is the oldest inside it. -/
def trendHistory : List PodStorageMetrics :=
  [sampleMetrics 100 0 0 0 0 800, sampleMetrics 200 0 0 0 0 950,
   sampleMetrics 200 0 0 0 0 1000]

/-- All five latencies equal to 1ms: the three sub-latencies are tied and
jointly maximal, and read/write are below their thresholds. -/
def tieSample : PodStorageMetrics :=
  sampleMetrics 1000000 1000000 1000000 1000000 1000000 0

/-! ### Helper lemmas -/

/-- Scanning a list from its last element backwards and returning the first
hit is the same as taking the last element of the filtered list. -/
theorem reverse_find?_eq_filter_getLast? (l : List α) (p : α → Bool) :
    l.reverse.find? p = (l.filter p).getLast? := by
  induction l with
  | nil => rfl
  | cons a t ih =>
    rw [List.reverse_cons, List.find?_append, List.filter_cons]
    cases hpa : p a
    · simp only [hpa, Bool.false_eq_true, if_false, ih, List.find?, Option.or_none]
    · cases hf : t.filter p with
      | nil => simp only [hpa, if_true, ih, hf, List.find?, List.getLast?_singleton,
          List.getLast?_nil, Option.none_or]
      | cons c cs => simp only [hpa, if_true, ih, hf, List.find?, List.getLast?_cons,
          Option.or, Option.getD_some, List.getLast?_cons_cons]

/-! ### Claim theorems -/

/-- C5: `analyzeBottleneck` is a pure, deterministic function implementing
the spec's priority order with first match winning: (1) `queue` when the
queue latency is above its 5ms threshold and is the strict maximum of the
three sub-latencies; (2) `disk` when the disk latency is the strict maximum
(no threshold); (3) `network` when the network latency is the strict
maximum; (4) `unknown` when none matched but read latency > 10ms or write
latency > 20ms; (5) `none` otherwise — thresholds in nanoseconds. -/
theorem analyzeBottleneck_implements_priority_order (m : PodStorageMetrics) :
    analyzeBottleneck m = classifySpec m := by
  simp only [analyzeBottleneck, classifySpec, gt_iff_lt, max_lt_iff]

/-- C2 counterexample: all five latencies of `tieSample` are 1ms, so the
three sub-latencies are tied and jointly maximal, yet the classifier
returns `none` — not `unknown` as the claim states. -/
theorem tie_at_low_latency_classifies_none :
    tiedMaximal tieSample ∧ analyzeBottleneck tieSample = .none ∧
      analyzeBottleneck tieSample ≠ .unknown := by
  decide

/-- C2 (amended): when two or more of the three sub-latencies are equal and
jointly maximal, none of rules 1-3 fires (equality never satisfies the
strict-maximum condition); classification falls through to the read/write
threshold check, returning `unknown` when the read latency exceeds 10ms or
the write latency exceeds 20ms, and `none` otherwise. -/
theorem tie_falls_through_to_threshold_check (m : PodStorageMetrics)
    (h : tiedMaximal m) :
    analyzeBottleneck m =
      if m.readLatency > ReadLatencyThreshold ∨
          m.writeLatency > WriteLatencyThreshold
      then .unknown else .none := by
  simp only [tiedMaximal] at h
  have hq : ¬(m.queueLatency > QueueLatencyThreshold ∧
      m.queueLatency > m.diskLatency ∧ m.queueLatency > m.networkLatency) := by
    rcases h with ⟨h1, h2⟩ | ⟨h1, h2⟩ | ⟨h1, h2⟩ <;> omega
  have hd : ¬(m.diskLatency > m.queueLatency ∧
      m.diskLatency > m.networkLatency) := by
    rcases h with ⟨h1, h2⟩ | ⟨h1, h2⟩ | ⟨h1, h2⟩ <;> omega
  have hn : ¬(m.networkLatency > m.queueLatency ∧
      m.networkLatency > m.diskLatency) := by
    rcases h with ⟨h1, h2⟩ | ⟨h1, h2⟩ | ⟨h1, h2⟩ <;> omega
  simp only [analyzeBottleneck, if_neg hq, if_neg hd, if_neg hn]

/-- Witness for the amended C2 theorem at the concrete tied snapshot. -/
theorem tie_falls_through_witness :
    tiedMaximal tieSample ∧
      analyzeBottleneck tieSample =
        if tieSample.readLatency > ReadLatencyThreshold ∨
            tieSample.writeLatency > WriteLatencyThreshold
        then .unknown else .none :=
  ⟨by decide, tie_falls_through_to_threshold_check tieSample (by decide)⟩

/-- C1 counterexample: on `trendHistory` with `now = 1000` and window 100,
the code's old endpoint is the snapshot at t = 800 (just *outside* the
window), giving ("increased", 100); the claim's prescription — the oldest
snapshot inside the window, at t = 950 — would give ("stable", 0). -/
theorem trend_uses_entry_outside_window :
    getLatencyTrend trendHistory 1000 100 = .ok ("increased", 100) ∧
      getLatencyTrendClaimed trendHistory 1000 100 = .ok ("stable", 0) ∧
      getLatencyTrend trendHistory 1000 100 ≠
        getLatencyTrendClaimed trendHistory 1000 100 := by
  have h1 : getLatencyTrend trendHistory 1000 100 = .ok ("increased", 100) := by
    norm_num [getLatencyTrend, trendFrom, combinedLatency, trendHistory, sampleMetrics]
  have h2 : getLatencyTrendClaimed trendHistory 1000 100 = .ok ("stable", 0) := by
    norm_num [getLatencyTrendClaimed, trendFrom, combinedLatency, trendHistory,
      sampleMetrics, List.filter]
  refine ⟨h1, h2, ?_⟩
  rw [h1, h2]
  intro hco
  simp only [Except.ok.injEq, Prod.mk.injEq] at hco
  exact absurd hco.1 (by decide)

/-- C1 (amended): `GetLatencyTrend` computes its change between the latest
snapshot and the *most recent* snapshot whose timestamp is strictly before
`now − window` (the first hit of the newest-to-oldest scan); only when every
snapshot's timestamp is ≥ `now − window` does it fall back to the oldest
available snapshot.  The classification of the change is as the claim
states it (shared `trendFrom`). -/
theorem getLatencyTrend_amended_spec (history : List PodStorageMetrics)
    (now dur : Int) :
    getLatencyTrend history now dur = getLatencyTrendAmended history now dur := by
  cases history with
  | nil => rfl
  | cons first rest =>
    cases rest with
    | nil => rfl
    | cons b t =>
      simp only [getLatencyTrend, getLatencyTrendAmended]
      rw [reverse_find?_eq_filter_getLast?]
      simp only [List.getLastD_eq_getLast?]

/-- C9: a trend query on a history with fewer than 2 entries fails with the
insufficient-data error, which is distinguishable from every successful
trend result (in particular from a real "stable" trend). -/
theorem getLatencyTrend_insufficient_data (history : List PodStorageMetrics)
    (now dur : Int) (h : history.length < 2) :
    getLatencyTrend history now dur = .error "insufficient data" ∧
      ∀ s : String, ∀ c : ℚ, getLatencyTrend history now dur ≠ .ok (s, c) := by
  have he : getLatencyTrend history now dur = .error "insufficient data" := by
    cases history with
    | nil => rfl
    | cons a rest =>
      cases rest with
      | nil => rfl
      | cons b t =>
        simp only [List.length_cons] at h
        omega
  refine ⟨he, fun s c hc => ?_⟩
  rw [he] at hc
  exact Except.noConfusion hc

/-- Witness for C9 at the empty history (an entity never seen). -/
theorem getLatencyTrend_insufficient_data_witness :
    ([] : List PodStorageMetrics).length < 2 ∧
      getLatencyTrend [] 0 0 = .error "insufficient data" :=
  ⟨by decide, (getLatencyTrend_insufficient_data [] 0 0 (by decide)).1⟩

/-- One insertion never changes the capacity field. -/
theorem addMetrics_maxHistory (batch : List (String × PodStorageMetrics))
    (sa : StorageAnalyzer) :
    (addMetrics sa batch).maxHistoryPerPod = sa.maxHistoryPerPod := by
  induction batch generalizing sa with
  | nil => rfl
  | cons e t ih => exact ih (addPodMetrics sa e.1 e.2)

/-- One insertion preserves the history-length bound for every pod. -/
theorem addPodMetrics_bounded (sa : StorageAnalyzer)
    (hinv : ∀ p, (sa.metricsHistory p).length ≤ sa.maxHistoryPerPod)
    (pn : String) (m : PodStorageMetrics) :
    ∀ p, ((addPodMetrics sa pn m).metricsHistory p).length ≤
      (addPodMetrics sa pn m).maxHistoryPerPod := by
  intro p
  have hmax : (addPodMetrics sa pn m).maxHistoryPerPod = sa.maxHistoryPerPod := rfl
  by_cases hp : p = pn
  · subst hp
    have hh : (addPodMetrics sa p m).metricsHistory p =
        if (sa.metricsHistory p ++ [m]).length > sa.maxHistoryPerPod
        then (sa.metricsHistory p ++ [m]).tail
        else sa.metricsHistory p ++ [m] := by
      simp [addPodMetrics]
    rw [hmax, hh]
    have hpn := hinv p
    split
    next hl =>
      rw [List.length_tail]
      simp only [List.length_append, List.length_cons, List.length_nil] at hl ⊢
      omega
    next hl =>
      simp only [List.length_append, List.length_cons, List.length_nil] at hl ⊢
      omega
  · have hh : (addPodMetrics sa pn m).metricsHistory p = sa.metricsHistory p := by
      simp [addPodMetrics, hp]
    rw [hmax, hh]
    exact hinv p

/-- One whole `AddMetrics` batch preserves the history-length bound. -/
theorem addMetrics_bounded (batch : List (String × PodStorageMetrics))
    (sa : StorageAnalyzer)
    (hinv : ∀ p, (sa.metricsHistory p).length ≤ sa.maxHistoryPerPod) :
    ∀ p, ((addMetrics sa batch).metricsHistory p).length ≤
      (addMetrics sa batch).maxHistoryPerPod := by
  induction batch generalizing sa with
  | nil => exact hinv
  | cons e t ih => exact ih (addPodMetrics sa e.1 e.2) (addPodMetrics_bounded sa hinv e.1 e.2)

/-- A sequence of `AddMetrics` calls preserves the history-length bound. -/
theorem foldl_addMetrics_bounded
    (batches : List (List (String × PodStorageMetrics))) (sa : StorageAnalyzer)
    (hinv : ∀ p, (sa.metricsHistory p).length ≤ sa.maxHistoryPerPod) :
    ∀ p, ((batches.foldl addMetrics sa).metricsHistory p).length ≤
      (batches.foldl addMetrics sa).maxHistoryPerPod := by
  induction batches generalizing sa with
  | nil => exact hinv
  | cons b bs ih => exact ih (addMetrics sa b) (addMetrics_bounded b sa hinv)

/-- A sequence of `AddMetrics` calls never changes the capacity field. -/
theorem foldl_addMetrics_maxHistory
    (batches : List (List (String × PodStorageMetrics))) (sa : StorageAnalyzer) :
    (batches.foldl addMetrics sa).maxHistoryPerPod = sa.maxHistoryPerPod := by
  induction batches generalizing sa with
  | nil => rfl
  | cons b bs ih => rw [List.foldl_cons, ih, addMetrics_maxHistory]

/-- C7: for an analyzer constructed with capacity `cap ≥ 1`, after any
sequence of `AddMetrics` calls every pod's stored history has length at most
`cap` (each insertion appends at the tail and, when over capacity, drops
exactly the head). -/
theorem history_length_bounded (cap : Nat) (hcap : 1 ≤ cap)
    (batches : List (List (String × PodStorageMetrics))) (pod : String) :
    ((batches.foldl addMetrics
        (withMaxHistoryPerPod cap newStorageAnalyzer)).metricsHistory pod).length
      ≤ cap := by
  have hmax : (batches.foldl addMetrics
      (withMaxHistoryPerPod cap newStorageAnalyzer)).maxHistoryPerPod = cap := by
    rw [foldl_addMetrics_maxHistory]
    simp only [withMaxHistoryPerPod, newStorageAnalyzer]
    rw [if_pos (by omega)]
  have h0 : ∀ p,
      (((withMaxHistoryPerPod cap newStorageAnalyzer)).metricsHistory p).length ≤
        (withMaxHistoryPerPod cap newStorageAnalyzer).maxHistoryPerPod := by
    intro p
    simp only [withMaxHistoryPerPod, newStorageAnalyzer]
    rw [if_pos (by omega)]
    simp
  have hb := foldl_addMetrics_bounded batches _ h0 pod
  rw [hmax] at hb
  exact hb

/-- Two insertion cycles for pod "p" against capacity 1. -/
def boundBatches : List (List (String × PodStorageMetrics)) :=
  [[("p", sampleMetrics 1 0 0 0 0 0)], [("p", sampleMetrics 2 0 0 0 0 1)]]

/-- Witness for C7: capacity 1, two insertions for the same pod. -/
theorem history_length_bounded_witness :
    1 ≤ 1 ∧
      ((boundBatches.foldl addMetrics
          (withMaxHistoryPerPod 1 newStorageAnalyzer)).metricsHistory "p").length
        ≤ 1 :=
  ⟨by decide, history_length_bounded 1 (by decide) boundBatches "p"⟩

/-- The top-N comparator is transitive. -/
theorem slowLE_trans (a b c : PodStorageMetrics) :
    slowLE a b = true → slowLE b c = true → slowLE a c = true := by
  simp only [slowLE, decide_eq_true_eq]
  omega

/-- The top-N comparator is total. -/
theorem slowLE_total (a b : PodStorageMetrics) :
    (slowLE a b || slowLE b a) = true := by
  simp only [slowLE, Bool.or_eq_true, decide_eq_true_eq]
  omega

/-- When every entity has at least one snapshot, the ranking covers all of
them (the `continue` on empty history skips nothing). -/
theorem latestMetrics_length (entries : List (String × List PodStorageMetrics))
    (hne : ∀ e ∈ entries, e.2 ≠ []) :
    (latestMetrics entries).length = entries.length := by
  induction entries with
  | nil => rfl
  | cons e t ih =>
    have he : e.2 ≠ [] := hne e (List.mem_cons_self e t)
    cases hx : e.2.getLast? with
    | none => exact absurd (List.getLast?_eq_none_iff.mp hx) he
    | some x =>
      simp only [latestMetrics, List.filterMap_cons, hx, List.length_cons]
      rw [show (t.filterMap fun e => e.2.getLast?) = latestMetrics t from rfl,
        ih (fun e' he' => hne e' (List.mem_cons_of_mem e he'))]

/-- An entity whose only snapshot carries its 30ms of combined latency
entirely in the read column. -/
def tieSlowA : PodStorageMetrics := sampleMetrics 30000000 0 0 0 0 0

/-- A distinct entity with the same combined latency, carried entirely in
the write column. -/
def tieSlowB : PodStorageMetrics := sampleMetrics 0 30000000 0 0 0 0

/-- The two-entity history map {a ↦ tieSlowA, b ↦ tieSlowB} in one of its
two possible iteration orders. -/
def tiedEntries : List (String × List PodStorageMetrics) :=
  [("a", [tieSlowA]), ("b", [tieSlowB])]

/-- The same map in its other iteration order. -/
def tiedEntriesSwapped : List (String × List PodStorageMetrics) :=
  [("b", [tieSlowB]), ("a", [tieSlowA])]

/-- C4 counterexample: the same two-entity map (the lists are permutations
of each other), whose entities are tied at 30ms combined latency, produces
two different top-2 results depending only on the map iteration order —
which Go randomises per run.  So the output on ties is not determined by
the entity set at all, and no fixed ordering rule — in particular not "a
stable sort" — describes what `GetTopNSlowPods` returns. -/
theorem getTopNSlowPods_tie_order_not_determined :
    combinedLatency tieSlowA = combinedLatency tieSlowB ∧ tieSlowA ≠ tieSlowB ∧
      tiedEntries.Perm tiedEntriesSwapped ∧
      getTopNSlowPods 2 tiedEntries = [tieSlowA, tieSlowB] ∧
      getTopNSlowPods 2 tiedEntriesSwapped = [tieSlowB, tieSlowA] ∧
      getTopNSlowPods 2 tiedEntries ≠ getTopNSlowPods 2 tiedEntriesSwapped := by
  have h1 : getTopNSlowPods 2 tiedEntries = [tieSlowA, tieSlowB] := by
    show (List.mergeSort [tieSlowA, tieSlowB] slowLE).take 2 = [tieSlowA, tieSlowB]
    rw [List.mergeSort_of_sorted (by simp only [List.pairwise_cons]; exact ⟨by decide, by decide⟩)]
    decide
  have h2 : getTopNSlowPods 2 tiedEntriesSwapped = [tieSlowB, tieSlowA] := by
    show (List.mergeSort [tieSlowB, tieSlowA] slowLE).take 2 = [tieSlowB, tieSlowA]
    rw [List.mergeSort_of_sorted (by simp only [List.pairwise_cons]; exact ⟨by decide, by decide⟩)]
    decide
  refine ⟨by decide, by decide, List.Perm.swap _ _ _, h1, h2, ?_⟩
  rw [h1, h2]
  decide

/-- C4 (amended): over entities that each have at least one snapshot and
for every map iteration order, every output the `sort.Slice` contract
admits for `GetTopNSlowPods n` — and in particular the one this embedding
computes — is sorted by combined read+write latency in non-increasing
order and truncated to `min n (number of entities)`; the relative order of
tied entities is unspecified. -/
theorem getTopNSlowPods_ranking (entries : List (String × List PodStorageMetrics))
    (n : Nat) (hne : ∀ e ∈ entries, e.2 ≠ []) :
    isTopNResult entries n (getTopNSlowPods n entries) ∧
      ∀ result, isTopNResult entries n result →
        List.Sorted (fun a b => combinedLatency b ≤ combinedLatency a) result ∧
          result.length = min n entries.length := by
  constructor
  · refine ⟨slowRanking entries, ⟨List.mergeSort_perm _ _, ?_⟩, rfl⟩
    have hs : List.Pairwise (fun a b => slowLE a b = true) (slowRanking entries) :=
      List.sorted_mergeSort slowLE_trans slowLE_total (latestMetrics entries)
    exact hs.imp fun h => by simpa [slowLE, decide_eq_true_eq] using h
  · rintro result ⟨r, ⟨hperm, hsorted⟩, rfl⟩
    constructor
    · exact List.Pairwise.sublist (List.take_sublist n r) hsorted
    · rw [List.length_take, hperm.length_eq, latestMetrics_length entries hne]

/-- The spec's three-entity example: combined latencies 5ms, 30ms, 12ms. -/
def topNEntries : List (String × List PodStorageMetrics) :=
  [("a", [sampleMetrics 5000000 0 0 0 0 0]),
   ("b", [sampleMetrics 30000000 0 0 0 0 0]),
   ("c", [sampleMetrics 12000000 0 0 0 0 0])]

/-- Witness for C4 at the spec's three-entity example with n = 2: the
embedding's output satisfies the contract, and the contract forces the
length min 2 3. -/
theorem getTopNSlowPods_ranking_witness :
    (∀ e ∈ topNEntries, e.2 ≠ []) ∧
      (getTopNSlowPods 2 topNEntries).length = min 2 topNEntries.length :=
  ⟨by decide,
    ((getTopNSlowPods_ranking topNEntries 2 (by decide)).2
      (getTopNSlowPods 2 topNEntries)
      (getTopNSlowPods_ranking topNEntries 2 (by decide)).1).2⟩

/-- Casting a summed `Nat` projection into `ℚ` commutes with mapping. -/
theorem list_cast_sum_nat (l : List PodStorageMetrics) (f : PodStorageMetrics → Nat) :
    (l.map fun m => (f m : ℚ)).sum = (((l.map f).sum : Nat) : ℚ) := by
  rw [Nat.cast_list_sum, List.map_map]
  rfl

/-- `popMean` over cast projections is the cast sum over the length. -/
theorem popMean_map_cast (l : List PodStorageMetrics) (f : PodStorageMetrics → Nat) :
    popMean (l.map fun m => (f m : ℚ)) =
      (((l.map f).sum : Nat) : ℚ) / (l.length : ℚ) := by
  simp only [popMean, list_cast_sum_nat, List.length_map]

/-- `popVar` over cast projections, written in the code's shape. -/
theorem popVar_map_cast (l : List PodStorageMetrics) (f : PodStorageMetrics → Nat) :
    popVar (l.map fun m => (f m : ℚ)) =
      ((l.map fun m =>
          ((f m : ℚ) - (((l.map f).sum : Nat) : ℚ) / (l.length : ℚ)) *
          ((f m : ℚ) - (((l.map f).sum : Nat) : ℚ) / (l.length : ℚ))).sum) /
        (l.length : ℚ) := by
  simp only [popVar, popMean_map_cast, List.length_map, List.map_map]
  rfl

/-- The spec's z-score over cast projections, written in the code's shape. -/
theorem zScoreSpec_eq (l : List PodStorageMetrics) (f : PodStorageMetrics → Nat)
    (x : ℚ) :
    zScoreSpec (l.map fun m => (f m : ℚ)) x =
      (x - (((l.map f).sum : Nat) : ℚ) / (l.length : ℚ)) /
        (((l.map fun m =>
            ((f m : ℚ) - (((l.map f).sum : Nat) : ℚ) / (l.length : ℚ)) *
            ((f m : ℚ) - (((l.map f).sum : Nat) : ℚ) / (l.length : ℚ))).sum) /
          (l.length : ℚ)) := by
  simp only [zScoreSpec, popVar_map_cast, popMean_map_cast]

/-- C6: `detectAnomaly` computes exactly the spec's rule — below 10 entries
it returns false; otherwise it flags iff the read or write z-score
`(latest − population mean) / population variance` exceeds the threshold —
and a latest snapshot that does not deviate upward in either dimension never
triggers the flag (for any non-negative threshold). -/
theorem detectAnomaly_matches_spec (θ : ℚ) (history : List PodStorageMetrics)
    (hθ : 0 ≤ θ) :
    detectAnomaly θ history = detectAnomalySpec θ history ∧
      (∀ latest, history.getLast? = some latest →
        (latest.readLatency : ℚ) ≤ popMean (history.map fun m => (m.readLatency : ℚ)) →
        (latest.writeLatency : ℚ) ≤ popMean (history.map fun m => (m.writeLatency : ℚ)) →
        detectAnomaly θ history = false) := by
  constructor
  · by_cases hlen : history.length < 10
    · simp [detectAnomaly, detectAnomalySpec, hlen]
    · simp only [detectAnomaly, detectAnomalySpec, if_neg hlen]
      cases hl : history.getLast? with
      | none => rfl
      | some latest => simp only [zScoreSpec_eq]
  · intro latest hl hr hw
    by_cases hlen : history.length < 10
    · simp [detectAnomaly, hlen]
    · rw [popMean_map_cast] at hr hw
      have hden_r : (0 : ℚ) ≤
          ((history.map fun m =>
              ((m.readLatency : ℚ) - (((history.map (·.readLatency)).sum : Nat) : ℚ) / (history.length : ℚ)) *
              ((m.readLatency : ℚ) - (((history.map (·.readLatency)).sum : Nat) : ℚ) / (history.length : ℚ))).sum) /
            (history.length : ℚ) := by
        apply div_nonneg
        · apply List.sum_nonneg
          intro x hx
          obtain ⟨m, _, rfl⟩ := List.mem_map.mp hx
          exact mul_self_nonneg _
        · exact Nat.cast_nonneg _
      have hden_w : (0 : ℚ) ≤
          ((history.map fun m =>
              ((m.writeLatency : ℚ) - (((history.map (·.writeLatency)).sum : Nat) : ℚ) / (history.length : ℚ)) *
              ((m.writeLatency : ℚ) - (((history.map (·.writeLatency)).sum : Nat) : ℚ) / (history.length : ℚ))).sum) /
            (history.length : ℚ) := by
        apply div_nonneg
        · apply List.sum_nonneg
          intro x hx
          obtain ⟨m, _, rfl⟩ := List.mem_map.mp hx
          exact mul_self_nonneg _
        · exact Nat.cast_nonneg _
      have hzr : ((latest.readLatency : ℚ) -
          (((history.map (·.readLatency)).sum : Nat) : ℚ) / (history.length : ℚ)) /
            (((history.map fun m =>
              ((m.readLatency : ℚ) - (((history.map (·.readLatency)).sum : Nat) : ℚ) / (history.length : ℚ)) *
              ((m.readLatency : ℚ) - (((history.map (·.readLatency)).sum : Nat) : ℚ) / (history.length : ℚ))).sum) /
            (history.length : ℚ)) ≤ 0 :=
        div_nonpos_of_nonpos_of_nonneg (by linarith) hden_r
      have hzw : ((latest.writeLatency : ℚ) -
          (((history.map (·.writeLatency)).sum : Nat) : ℚ) / (history.length : ℚ)) /
            (((history.map fun m =>
              ((m.writeLatency : ℚ) - (((history.map (·.writeLatency)).sum : Nat) : ℚ) / (history.length : ℚ)) *
              ((m.writeLatency : ℚ) - (((history.map (·.writeLatency)).sum : Nat) : ℚ) / (history.length : ℚ))).sum) /
            (history.length : ℚ)) ≤ 0 :=
        div_nonpos_of_nonpos_of_nonneg (by linarith) hden_w
      simp only [detectAnomaly, if_neg hlen, hl, Bool.or_eq_false_iff]
      constructor
      · exact decide_eq_false (by rw [gt_iff_lt, not_lt]; linarith)
      · exact decide_eq_false (by rw [gt_iff_lt, not_lt]; linarith)

/-- A constant history: 10 snapshots with read = write = 5ns. -/
def constHistory : List PodStorageMetrics :=
  List.replicate 10 (sampleMetrics 5 5 0 0 0 0)

/-- Witness for C6 at the default threshold 2.0 and a 10-entry history. -/
theorem detectAnomaly_matches_spec_witness :
    (0 : ℚ) ≤ 2 ∧ detectAnomaly 2 constHistory = detectAnomalySpec 2 constHistory :=
  ⟨by norm_num, (detectAnomaly_matches_spec 2 constHistory (by norm_num)).1⟩

/-- C10: on a history of ≥ 10 snapshots that all carry the same read latency
and the same write latency, the detector returns false and does not fail:
the population variance is 0, so the z-score denominator is 0 and the
comparison with a non-negative threshold comes out false (here via Lean's
`x / 0 = 0`, matching IEEE's `NaN > t = false` verdict). -/
theorem detectAnomaly_constant_history (θ : ℚ) (hθ : 0 ≤ θ) (r w : Nat)
    (history : List PodStorageMetrics) (hlen : 10 ≤ history.length)
    (hconst : ∀ m ∈ history, m.readLatency = r ∧ m.writeLatency = w) :
    detectAnomaly θ history = false := by
  have hnl : ¬ history.length < 10 := by omega
  cases hl : history.getLast? with
  | none => simp [detectAnomaly, hnl, hl]
  | some latest =>
    have hsq_r : (history.map fun m =>
        ((m.readLatency : ℚ) - (((history.map (·.readLatency)).sum : Nat) : ℚ) / (history.length : ℚ)) *
        ((m.readLatency : ℚ) - (((history.map (·.readLatency)).sum : Nat) : ℚ) / (history.length : ℚ))).sum = 0 := by
      have hsum : (history.map (·.readLatency)).sum = history.length * r := by
        have hall : ∀ x ∈ history.map (·.readLatency), x = r := by
          intro x hx
          obtain ⟨m, hm, rfl⟩ := List.mem_map.mp hx
          exact (hconst m hm).1
        rw [List.sum_eq_card_nsmul _ r hall, List.length_map, smul_eq_mul]
      have hn0 : (history.length : ℚ) ≠ 0 := by
        rw [Nat.cast_ne_zero]
        omega
      have havg : (((history.map (·.readLatency)).sum : Nat) : ℚ) / (history.length : ℚ) = (r : ℚ) := by
        rw [hsum]
        push_cast
        rw [mul_div_cancel_left₀ _ hn0]
      apply List.sum_eq_zero
      intro x hx
      obtain ⟨m, hm, rfl⟩ := List.mem_map.mp hx
      rw [havg, (hconst m hm).1]
      ring
    have hsq_w : (history.map fun m =>
        ((m.writeLatency : ℚ) - (((history.map (·.writeLatency)).sum : Nat) : ℚ) / (history.length : ℚ)) *
        ((m.writeLatency : ℚ) - (((history.map (·.writeLatency)).sum : Nat) : ℚ) / (history.length : ℚ))).sum = 0 := by
      have hsum : (history.map (·.writeLatency)).sum = history.length * w := by
        have hall : ∀ x ∈ history.map (·.writeLatency), x = w := by
          intro x hx
          obtain ⟨m, hm, rfl⟩ := List.mem_map.mp hx
          exact (hconst m hm).2
        rw [List.sum_eq_card_nsmul _ w hall, List.length_map, smul_eq_mul]
      have hn0 : (history.length : ℚ) ≠ 0 := by
        rw [Nat.cast_ne_zero]
        omega
      have havg : (((history.map (·.writeLatency)).sum : Nat) : ℚ) / (history.length : ℚ) = (w : ℚ) := by
        rw [hsum]
        push_cast
        rw [mul_div_cancel_left₀ _ hn0]
      apply List.sum_eq_zero
      intro x hx
      obtain ⟨m, hm, rfl⟩ := List.mem_map.mp hx
      rw [havg, (hconst m hm).2]
      ring
    have hf : decide (θ < (0:ℚ)) = false := decide_eq_false (not_lt.mpr hθ)
    simp only [detectAnomaly, if_neg hnl, hl, hsq_r, hsq_w, zero_div, div_zero,
      gt_iff_lt, hf, Bool.or_self]

/-- Witness for C10 at the constant 10-entry history and threshold 2.0. -/
theorem detectAnomaly_constant_history_witness :
    (0 : ℚ) ≤ 2 ∧ 10 ≤ constHistory.length ∧
      (∀ m ∈ constHistory, m.readLatency = 5 ∧ m.writeLatency = 5) ∧
      detectAnomaly 2 constHistory = false :=
  ⟨by norm_num, by decide, by decide,
    detectAnomaly_constant_history 2 (by norm_num) 5 5 constHistory (by decide) (by decide)⟩

/-- C8: a completion signal with no pending start under its key emits
nothing and raises no error (return code 0, state untouched); with a pending
start it emits exactly once with duration `end_ts − start_ts`, returns 0,
and removes the pending entry, so a second completion for the same key
emits nothing. -/
theorem traceBlockRqComplete_spec (st : BpfState) (req now : Nat) :
    (st.requests req = Option.none →
      traceBlockRqComplete st req now = (st, Option.none, 0)) ∧
    (∀ ev, st.requests req = some ev → ev.ioStart ≤ now → now < U64 →
      (traceBlockRqComplete st req now).2.1 =
          some ({ ev with ioEnd := now }, now - ev.ioStart) ∧
        (traceBlockRqComplete st req now).1.requests req = Option.none ∧
        (traceBlockRqComplete st req now).2.2 = 0 ∧
        ∀ now2 : Nat,
          (traceBlockRqComplete (traceBlockRqComplete st req now).1 req now2).2.1 =
            Option.none) := by
  constructor
  · intro h
    simp [traceBlockRqComplete, h]
  · intro ev h h1 h2
    have hdur : u64sub now ev.ioStart = now - ev.ioStart := by
      have h2' : now < 2 ^ 64 := by simpa [U64] using h2
      simp only [u64sub, U64]
      omega
    have hrm : (traceBlockRqComplete st req now).1.requests req = Option.none := by
      simp [traceBlockRqComplete, h]
    have hdrop : ∀ (s : BpfState) (t : Nat), s.requests req = Option.none →
        (traceBlockRqComplete s req t).2.1 = Option.none := by
      intro s t hs
      simp [traceBlockRqComplete, hs]
    refine ⟨?_, hrm, ?_, fun now2 => hdrop _ now2 hrm⟩
    · simp [traceBlockRqComplete, h, hdur]
    · simp [traceBlockRqComplete, h]

/-- A pending start at key 5: issued at t = 3 by pid 42 (a read). -/
def pendingEvent : IOEvent := ⟨3, 42, 7, 3, 0, 4096, 0⟩

/-- A correlator state holding only that pending start. -/
def bpfStart : BpfState :=
  ⟨fun r => if r = 5 then some pendingEvent else Option.none, fun _ => Option.none⟩

/-- Witness for C8: completing key 5 at t = 10 emits duration 7. -/
theorem traceBlockRqComplete_spec_witness :
    bpfStart.requests 5 = some pendingEvent ∧ pendingEvent.ioStart ≤ 10 ∧
      (10 : Nat) < U64 ∧
      (traceBlockRqComplete bpfStart 5 10).2.1 =
        some ({ pendingEvent with ioEnd := 10 }, 10 - pendingEvent.ioStart) :=
  ⟨rfl, by decide, by decide,
    ((traceBlockRqComplete_spec bpfStart 5 10).2 pendingEvent rfl (by decide)
      (by decide)).1⟩

/-- The all-zero record backing unallocated heap cells. -/
def zeroMetrics : PodStorageMetrics := ⟨"", "", 0, 0, 0, 0, 0, 0, 0, 0, 0, 0⟩

/-- A fresh pointer-level analyzer with no pods. -/
def emptyAnalyzerH : StorageAnalyzerH := ⟨⟨fun _ => zeroMetrics, 0⟩, [], 100⟩

/-- The snapshot stored for pod "p". -/
def storedSample : PodStorageMetrics := sampleMetrics 5 5 0 0 0 0

/-- What a caller overwrites the returned snapshot with. -/
def mutatedSample : PodStorageMetrics := sampleMetrics 999 999 0 0 0 0

/-- The analyzer after `AddMetrics` for pod "p" with `storedSample`. -/
def analyzerWithOnePod : StorageAnalyzerH :=
  addPodMetricsH emptyAnalyzerH "p" storedSample

/-- A top-1 query over a single one-snapshot pod returns the stored address. -/
theorem getTopNSlowPodsH_single (sa : StorageAnalyzerH) (p : String) (a : Nat)
    (h : sa.histories = [(p, [a])]) : getTopNSlowPodsH 1 sa = [a] := by
  simp [getTopNSlowPodsH, h, List.mergeSort_singleton]

/-- C3 failing case: `GetTopNSlowPods` returns the very address stored in
pod "p"'s history (cell 0) — a live reference, not a copy — so a caller
writing through it changes the stored snapshot, and a subsequent
`GetTopNSlowPods` read observes the mutated value. -/
theorem getTopNSlowPods_returns_live_reference :
    getTopNSlowPodsH 1 analyzerWithOnePod = [0] ∧
      lookupAssoc analyzerWithOnePod.histories "p" = [0] ∧
      analyzerWithOnePod.heap.cells 0 = storedSample ∧
      (getTopNSlowPodsH 1
          { analyzerWithOnePod with
            heap := analyzerWithOnePod.heap.write 0 mutatedSample }).map
        (fun a =>
          ({ analyzerWithOnePod with
             heap := analyzerWithOnePod.heap.write 0 mutatedSample }).heap.cells a) =
        [mutatedSample] ∧
      mutatedSample ≠ storedSample := by
  refine ⟨getTopNSlowPodsH_single _ "p" 0 rfl, by decide, by decide, ?_, by decide⟩
  rw [getTopNSlowPodsH_single _ "p" 0 rfl]
  decide

end IOEye
